import Mathlib

/-
Verification of the Bus-Tracker departure pipeline (src/app.py).

The embedding models the pure core of the script:
  * `_parse_iso_to_local_dt`  (time resolver, app.py:44-52)
  * `_pick_best_time`         (estimated-over-planned fallback, app.py:55-57)
  * `parse_stop_events`       (normalize / filter / derive / sort, app.py:60-113)
  * `render_grouped_by_date`  (truncate + group by date, app.py:116-204; only the
                               data shaping is modelled, the HTML/CSS emission is
                               presentation and carries no data logic)
  * `fetch_departures`        (credential check + request description, app.py:16-41)

Modelling conventions:
  * Instants are integers counting microseconds since the Unix epoch.  Python
    datetimes are timezone-aware after `astimezone()`; comparisons and
    subtraction of aware datetimes depend only on the instant, so an integer
    instant is a faithful carrier.  The machine-local zone used by
    `astimezone()` and `strftime` is modelled as a fixed offset `tz` in
    microseconds (DST transitions are not modelled; the program uses one fixed
    deployment zone).
  * `strftime "%d/%m/%Y"` is injective on calendar days, and
    `strftime "%H:%M"` is injective on minutes-of-day, so `date_label` is
    modelled as the local day number and `time_label` as the local
    minute-of-day; grouping and equality behave identically.
  * JSON absence and JSON null both read back as Python `None` through
    `.get(...)`/`or` chains, so both are `Option.none` in nested fields.  The
    top-level `stopEvents` field distinguishes absent / null / value
    (`payload.get("stopEvents", []) or []`), modelled by `JField`.
  * Python truthiness on strings (empty string is falsy) drives the `or`
    fallback chains; `pyOrStr` reproduces it.  `datetime` objects are always
    truthy, so `x or y` on optional datetimes is an option-orElse.
  * `datetime.fromisoformat` is embedded for the documented grammar
    `YYYY-MM-DD[*HH[:MM[:SS[.fff[fff]]]][(+|-)HH:MM[:SS[.ffffff]]]]` with the
    range checks performed by the `datetime`/`timezone` constructors.  Lenient
    corners of the CPython parser (e.g. `int()` accepting signs/whitespace, or
    one-digit day fields) are not modelled; no claim depends on them.
  * `pandas.DataFrame.sort_values(by=["dt"])` sorts ascending by the `dt`
    column with an unspecified (unstable, version-dependent) tie order; it is
    modelled by a comparison sort on the same key.  No theorem below relies on
    the order of records with equal `dt`.
  * The builder has one error path and it is modelled: with a non-empty frame
    whose rows all lack a parseable time, the `dt` column is all-`None` with
    object dtype, the `notna` filter keeps that dtype, and the `.dt` accessor
    at app.py:101 raises `AttributeError`; `parse_stop_events` therefore
    returns `Except String (List Departure)`.
-/

namespace BusTracker

/-! ## Fixed settings (app.py:8-13) -/

def TFNSW_ENDPOINT : String := "https://api.transport.nsw.gov.au/v1/tp/departure_mon"

def STOP_ID : String := "2122145"

def REFRESH_SECONDS : Nat := 20

/-- Total rows across all dates (app.py:13). -/
def SHOW_ROWS : Nat := 10

def usPerDay : Int := 86400000000

def usPerMin : Int := 60000000

/-! ## Python string helpers -/

/-- The whitespace code points stripped by Python `str.strip()`. -/
def pyWhitespace : List Char :=
  [' ', '\t', '\n', '\r', '\x0b', '\x0c', '\x1c', '\x1d', '\x1e', '\x1f',
   '\x85', '\xa0', '\u1680', '\u2000', '\u2001', '\u2002', '\u2003', '\u2004',
   '\u2005', '\u2006', '\u2007', '\u2008', '\u2009', '\u200a', '\u2028',
   '\u2029', '\u202f', '\u205f', '\u3000']

def pyWS (c : Char) : Bool := pyWhitespace.contains c

/-- Drop trailing whitespace characters. -/
def rtrimCore : List Char → List Char
  | [] => []
  | a :: t =>
    match rtrimCore t with
    | [] => if pyWS a then [] else [a]
    | b :: t2 => a :: b :: t2

def stripCore (l : List Char) : List Char := rtrimCore (l.dropWhile pyWS)

/-- Python `str.strip()`. -/
def pyStrip (s : String) : String := String.mk (stripCore s.data)

/-- One step of `str.replace("Z", "+00:00")` (single-character pattern, so the
replacement is per-character). -/
def replaceZChar (c : Char) : List Char :=
  if c = 'Z' then ['+', '0', '0', ':', '0', '0'] else [c]

/-- Python `iso_str.replace("Z", "+00:00")` (app.py:49). -/
def replaceZ (s : String) : String := String.mk (s.data.flatMap replaceZChar)

/-- Python `a or b` where `a` is an optional string field (JSON null / absent
read back as `None`) and the empty string is falsy. -/
def pyOrStr : Option String → String → String
  | some s, b => if s = "" then b else s
  | none, b => b

/-! ## Calendar arithmetic (proleptic Gregorian, as `datetime.date`) -/

def isLeap (y : Nat) : Bool := y % 4 = 0 ∧ (y % 100 ≠ 0 ∨ y % 400 = 0)

def daysInMonth (y m : Nat) : Nat :=
  if m = 1 then 31 else if m = 2 then (if isLeap y then 29 else 28)
  else if m = 3 then 31 else if m = 4 then 30 else if m = 5 then 31
  else if m = 6 then 30 else if m = 7 then 31 else if m = 8 then 31
  else if m = 9 then 30 else if m = 10 then 31 else if m = 11 then 30
  else 31

/-- Days from 1970-01-01 to the given civil date (standard civil-from-days
inverse, Gregorian). -/
def days_from_civil (y m d : Nat) : Int :=
  let yAdj : Int := (y : Int) - (if m ≤ 2 then 1 else 0)
  let era : Int := Int.fdiv yAdj 400
  let yoe : Int := yAdj - era * 400
  let mp : Int := ((m : Int) + 9) % 12
  let doy : Int := Int.fdiv (153 * mp + 2) 5 + (d : Int) - 1
  let doe : Int := yoe * 365 + Int.fdiv yoe 4 - Int.fdiv yoe 100 + doy
  era * 146097 + doe - 719468

/-! ## `datetime.fromisoformat` -/

def digitVal (c : Char) : Option Nat :=
  if c.isDigit then some (c.toNat - 48) else none

def digits2 : List Char → Option (Nat × List Char)
  | a :: b :: r =>
    match digitVal a, digitVal b with
    | some x, some y => some (10 * x + y, r)
    | _, _ => none
  | _ => none

def digits4 : List Char → Option (Nat × List Char)
  | a :: b :: c :: d :: r =>
    match digitVal a, digitVal b, digitVal c, digitVal d with
    | some x, some y, some z, some w => some (1000 * x + 100 * y + 10 * z + w, r)
    | _, _, _, _ => none
  | _ => none

/-- Value of a digit string (all characters must be digits). -/
def digitsVal (l : List Char) : Option Nat :=
  l.foldl
    (fun acc c =>
      match acc, digitVal c with
      | some a, some v => some (10 * a + v)
      | _, _ => none)
    (some 0)

/-- The `HH[:MM[:SS[.fff[fff]]]]` grammar of `_parse_hh_mm_ss_ff`, consuming
the whole string; the fourth component is microseconds. -/
def parse_hms (l : List Char) : Option (Nat × Nat × Nat × Nat) :=
  match digits2 l with
  | none => none
  | some (h, r1) =>
    match r1 with
    | [] => some (h, 0, 0, 0)
    | ':' :: r2 =>
      match digits2 r2 with
      | none => none
      | some (mi, r3) =>
        match r3 with
        | [] => some (h, mi, 0, 0)
        | ':' :: r4 =>
          match digits2 r4 with
          | none => none
          | some (se, r5) =>
            match r5 with
            | [] => some (h, mi, se, 0)
            | '.' :: fr =>
              match digitsVal fr with
              | none => none
              | some v =>
                if fr.length = 3 then some (h, mi, se, v * 1000)
                else if fr.length = 6 then some (h, mi, se, v)
                else none
            | _ => none
        | _ => none
    | _ => none

/-- Split the time string at the UTC-offset sign, searching for a `-` first and
then a `+`, as `tstr.find("-") + 1 or tstr.find("+") + 1` does; the Bool is
true for a negative offset. -/
def splitTZ (l : List Char) : List Char × Option (Bool × List Char) :=
  match l.findIdx? (fun c => c = '-') with
  | some i => (l.take i, some (true, l.drop (i + 1)))
  | none =>
    match l.findIdx? (fun c => c = '+') with
    | some i => (l.take i, some (false, l.drop (i + 1)))
    | none => (l, none)

/-- Embedding of `datetime.fromisoformat`: returns the naive civil timestamp in microseconds
since the epoch together with the UTC offset in microseconds when the string
carries one, or `none` when the string does not parse (a `ValueError` in
Python).  Range checks mirror the `datetime` constructor (year 1-9999, month,
day, hour ≤ 23, minute/second ≤ 59) and the `timezone` constructor (offset
strictly less than 24 hours). -/
def fromisoformat (s : String) : Option (Int × Option Int) :=
  match digits4 s.data with
  | none => none
  | some (y, r1) =>
    match r1 with
    | '-' :: r2 =>
      match digits2 r2 with
      | none => none
      | some (mo, r3) =>
        match r3 with
        | '-' :: r4 =>
          match digits2 r4 with
          | none => none
          | some (da, r5) =>
            if 1 ≤ y ∧ y ≤ 9999 ∧ 1 ≤ mo ∧ mo ≤ 12 ∧ 1 ≤ da ∧ da ≤ daysInMonth y mo then
              match r5 with
              | [] => some (days_from_civil y mo da * usPerDay, none)
              | _sep :: tstr =>
                if tstr = [] then none
                else
                  match splitTZ tstr with
                  | (timestr, tzpart) =>
                    match parse_hms timestr with
                    | none => none
                    | some (h, mi, se, us) =>
                      if h ≤ 23 ∧ mi ≤ 59 ∧ se ≤ 59 then
                        let civil : Int :=
                          days_from_civil y mo da * usPerDay +
                            (((h * 3600 + mi * 60 + se) * 1000000 + us : Nat) : Int)
                        match tzpart with
                        | none => some (civil, none)
                        | some (neg, tzstr) =>
                          if tzstr.length = 5 ∨ tzstr.length = 8 ∨ tzstr.length = 15 then
                            match parse_hms tzstr with
                            | none => none
                            | some (th, tmi, tse, tus) =>
                              let off : Int :=
                                (((th * 3600 + tmi * 60 + tse) * 1000000 + tus : Nat) : Int)
                              if off < 24 * 3600 * 1000000 then
                                some (civil, some (if neg then -off else off))
                              else none
                          else none
                      else none
            else none
        | _ => none
    | _ => none

/-! ## Time resolver (app.py:44-52) -/

/-- The instant denoted by a `fromisoformat` result after `astimezone()`:
an aware datetime keeps its instant; a naive one is interpreted in the local
zone `tz`. -/
def instantOfParsed (tz : Int) : Int × Option Int → Int
  | (civil, some off) => civil - off
  | (civil, none) => civil - tz

/-- The resolver `_parse_iso_to_local_dt` (app.py:44-52): empty input and any parse failure
give `none`; otherwise the timezone-aware local instant. -/
def _parse_iso_to_local_dt (tz : Int) (iso_str : String) : Option Int :=
  if iso_str = "" then none
  else (fromisoformat (replaceZ iso_str)).map (instantOfParsed tz)

/-! ## Raw upstream payload model -/

structure Dest where
  name : Option String
deriving DecidableEq, Repr

structure Transportation where
  disassembledName : Option String
  number : Option String
  name : Option String
  destination : Option Dest
deriving DecidableEq, Repr

structure Location where
  name : Option String
deriving DecidableEq, Repr

structure RawStopEvent where
  transportation : Option Transportation
  location : Option Location
  destination : Option Dest
  departureTimePlanned : Option String
  departureTime : Option String
  departureTimeEstimated : Option String
deriving DecidableEq, Repr

/-- A top-level JSON field: missing key, null value, or a value. -/
inductive JField (α : Type) where
  | absent : JField α
  | null : JField α
  | val : α → JField α
deriving DecidableEq, Repr

structure Payload where
  stopEvents : JField (List RawStopEvent)
deriving DecidableEq, Repr

def emptyTransportation : Transportation := ⟨none, none, none, none⟩

def emptyDest : Dest := ⟨none⟩

/-! ## Event normalization (app.py:64-90) -/

structure Row where
  line : String
  destination : String
  planned : String
  estimated : String
  stop_name : String
deriving DecidableEq, Repr

/-- The raw `line` fallback chain before `str(...).strip()` (app.py:71-76). -/
def rawLine (ev : RawStopEvent) : String :=
  let t := ev.transportation.getD emptyTransportation
  pyOrStr t.disassembledName (pyOrStr t.number (pyOrStr t.name ""))

/-- The per-event row built at app.py:64-90.  `location.get("name", "")`
returns Python `None` for an explicit-null name; that corner is collapsed to
`""` here (`stop_name` feeds no claim). -/
def normalize (ev : RawStopEvent) : Row :=
  let t := ev.transportation.getD emptyTransportation
  let loc := ev.location.getD (⟨none⟩ : Location)
  { line := pyStrip (rawLine ev)
  , destination :=
      pyOrStr ((ev.destination.getD emptyDest).name)
        (pyOrStr ((t.destination.getD emptyDest).name) "")
  , planned := pyOrStr ev.departureTimePlanned (pyOrStr ev.departureTime "")
  , estimated := pyOrStr ev.departureTimeEstimated ""
  , stop_name := loc.name.getD "" }

/-- Function `_pick_best_time` (app.py:55-57): `parse(estimated) or parse(planned)`;
datetimes are always truthy, so this is an option fallback. -/
def _pick_best_time (tz : Int) (row : Row) : Option Int :=
  match _parse_iso_to_local_dt tz row.estimated with
  | some t => some t
  | none => _parse_iso_to_local_dt tz row.planned

/-! ## Departure list builder (app.py:60-113) -/

structure Departure where
  line : String
  destination : String
  planned : String
  estimated : String
  stop_name : String
  dt : Int
  date_label : Int
  time_label : Int
  mins : Int
deriving DecidableEq, Repr

/-- Columns derived at app.py:101-106: labels from the local wall clock and
`mins = (dt - now).total_seconds() // 60` as a signed integer. -/
def mkDeparture (r : Row) (t now tz : Int) : Departure :=
  { line := r.line, destination := r.destination, planned := r.planned
  , estimated := r.estimated, stop_name := r.stop_name
  , dt := t
  , date_label := Int.fdiv (t + tz) usPerDay
  , time_label := Int.fdiv (Int.emod (t + tz) usPerDay) usPerMin
  , mins := Int.fdiv (t - now) usPerMin }

def rowOf (d : Departure) : Row :=
  ⟨d.line, d.destination, d.planned, d.estimated, d.stop_name⟩

/-- The sort key relation of `df.sort_values(by=["dt"])`. -/
def depLE (a b : Departure) : Prop := a.dt ≤ b.dt

instance : DecidableRel depLE := fun a b => inferInstanceAs (Decidable (a.dt ≤ b.dt))

instance : IsTotal Departure depLE := ⟨fun a b => Int.le_total a.dt b.dt⟩

instance : IsTrans Departure depLE := ⟨fun _ _ _ h1 h2 => le_trans h1 h2⟩

/-- Reading `payload.get("stopEvents", []) or []` (app.py:61): a missing key yields the
default `[]`, a null value is falsy and `or` replaces it with `[]`. -/
def eventsOf (payload : Payload) : List RawStopEvent :=
  match payload.stopEvents with
  | .absent => []
  | .null => []
  | .val l => l

/-- Rows of the frame built at app.py:64-92: one normalized row per event. -/
def rowsOf (payload : Payload) : List Row := (eventsOf payload).map normalize

/-- Stage of app.py:98-99: resolve each row's best `dt` and keep only rows
that have one, deriving the label and `mins` columns of app.py:101-106 per
kept row. -/
def survivors (payload : Payload) (now tz : Int) : List Departure :=
  (rowsOf payload).filterMap
    (fun r => (_pick_best_time tz r).map (fun t => mkDeparture r t now tz))

/-- Builder `parse_stop_events` (app.py:60-113).  An empty frame returns early
(app.py:94-95).  When the frame is non-empty but no row's time resolves,
`df.apply` produces an all-`None` object-dtype `dt` column; the `notna`
filter (app.py:99) keeps that dtype, so `df["dt"].dt.strftime` (app.py:101)
raises `AttributeError` — the `Except.error` branch.  Otherwise at least one
value is a local-zone datetime, pandas infers a datetimelike column (the
fixed-offset zone model keeps every `tzinfo` identical), and the remaining
stages complete: drop blank lines (app.py:109) and sort ascending by `dt`
(app.py:112; the tie order of the pandas quicksort is not modelled and no
theorem uses it). -/
def parse_stop_events (payload : Payload) (now tz : Int) :
    Except String (List Departure) :=
  if rowsOf payload = [] then .ok []
  else if survivors payload now tz = [] then
    .error "AttributeError: Can only use .dt accessor with datetimelike values"
  else
    .ok (List.insertionSort depLE
      ((survivors payload now tz).filter (fun d => 0 < d.line.length)))

/-! ## Grouping (app.py:116-204, data shaping only) -/

/-- Add one element at the end of its key's group, or open a new group at the
end; with `foldl` this reproduces `df.groupby(key, sort=False)` iteration:
groups in first-seen key order, elements in row order within each group. -/
def addToGroups {κ α : Type} [DecidableEq κ] (k : κ) (a : α) :
    List (κ × List α) → List (κ × List α)
  | [] => [(k, [a])]
  | (k0, g) :: t =>
    if k0 = k then (k0, g ++ [a]) :: t else (k0, g) :: addToGroups k a t

def groupByKey {κ α : Type} [DecidableEq κ] (key : α → κ) (l : List α) :
    List (κ × List α) :=
  l.foldl (fun acc a => addToGroups (key a) a acc) []

/-- The keys of a list in first-seen order. -/
def firstKeys {κ α : Type} [DecidableEq κ] (key : α → κ) (l : List α) : List κ :=
  l.foldl (fun ks a => if key a ∈ ks then ks else ks ++ [key a]) []

/-- Renderer `render_grouped_by_date` (app.py:116-204): truncate to `limit_rows` total
rows (app.py:123), then group by `date_label` with `sort=False` (app.py:177).
The emitted markup is presentation; the grouped structure is the data
content. -/
def render_grouped_by_date (df : List Departure) (limit_rows : Nat) :
    List (Int × List Departure) :=
  groupByKey (fun d => d.date_label) (df.take limit_rows)

/-! ## Upstream fetcher (app.py:16-41) -/

structure HttpRequest where
  url : String
  authorization : String
  params : List (String × String)
  timeout : Nat
deriving DecidableEq, Repr

inductive HttpOutcome where
  | transportError : String → HttpOutcome
  | response : Nat → Option Payload → HttpOutcome

inductive FetchError where
  | config : String → FetchError
  | upstream : String → FetchError
deriving DecidableEq, Repr

def requestParams (stop_id : String) : List (String × String) :=
  [("outputFormat", "rapidJSON"), ("coordOutputFormat", "EPSG:4326"),
   ("mode", "direct"), ("type_dm", "stop"), ("name_dm", stop_id),
   ("depArrMacro", "dep"), ("TfNSWDM", "true"),
   ("exclMOT_1", "1"), ("exclMOT_4", "1"), ("exclMOT_7", "1"),
   ("exclMOT_9", "1"), ("exclMOT_11", "1")]

/-- The request value of app.py:21-39: endpoint, `apikey` authorization
header, the bus-only query parameters, and the 20-second timeout. -/
def builtRequest (stop_id k : String) : HttpRequest :=
  { url := TFNSW_ENDPOINT, authorization := "apikey " ++ k
  , params := requestParams stop_id, timeout := 20 }

/-- Fetcher `fetch_departures` (app.py:16-41).  The environment lookup is the
`env_api_key` argument (`None` for an unset variable); `if not api_key` fires
on both a missing and an empty credential, before the request value is even
formed.  The transport is the `http` argument: a transport failure or a
non-success status or an unreadable body becomes an upstream error, distinct
by construction from the configuration error. -/
def fetch_departures (stop_id : String) (env_api_key : Option String)
    (http : HttpRequest → HttpOutcome) : Except FetchError Payload :=
  match env_api_key with
  | none => .error (.config "Missing TFNSW_API_KEY environment variable")
  | some k =>
    if k = "" then .error (.config "Missing TFNSW_API_KEY environment variable")
    else
      match http (builtRequest stop_id k) with
      | .transportError m => .error (.upstream m)
      | .response status body =>
        if 400 ≤ status then .error (.upstream "HTTPError")
        else
          match body with
          | none => .error (.upstream "malformed JSON")
          | some p => .ok p

/-! ## Lemmas: stripping is idempotent -/

theorem dropWhile_cons_false {α : Type} (p : α → Bool) (l : List α) {a : α}
    {t : List α} (h : l.dropWhile p = a :: t) : p a = false := by
  induction l with
  | nil => simp at h
  | cons b l ih =>
    rw [List.dropWhile_cons] at h
    by_cases hb : p b = true
    · rw [if_pos hb] at h
      exact ih h
    · rw [if_neg hb] at h
      cases h
      exact Bool.not_eq_true _ ▸ Bool.of_not_eq_true hb

theorem rtrimCore_cons_shape (a : Char) (t : List Char) :
    rtrimCore (a :: t) = [] ∨ ∃ t2, rtrimCore (a :: t) = a :: t2 := by
  cases h : rtrimCore t with
  | nil =>
    by_cases hw : pyWS a = true
    · left
      simp [rtrimCore, h, hw]
    · right
      exact ⟨[], by simp [rtrimCore, h, hw]⟩
  | cons b t2 =>
    right
    exact ⟨b :: t2, by simp [rtrimCore, h]⟩

theorem rtrimCore_idem (l : List Char) : rtrimCore (rtrimCore l) = rtrimCore l := by
  induction l with
  | nil => rfl
  | cons a t ih =>
    cases h : rtrimCore t with
    | nil =>
      by_cases hw : pyWS a = true
      · simp [rtrimCore, h, hw]
      · simp [rtrimCore, h, hw]
    | cons b t2 =>
      have h1 : rtrimCore (a :: t) = a :: b :: t2 := by simp [rtrimCore, h]
      have h2 : rtrimCore (b :: t2) = b :: t2 := by
        rw [← h, ih, h]
      have h3 : rtrimCore (a :: b :: t2) =
          match rtrimCore (b :: t2) with
          | [] => if pyWS a = true then [] else [a]
          | c :: t3 => a :: c :: t3 := rfl
      rw [h1, h3, h2]

theorem stripCore_idem (l : List Char) : stripCore (stripCore l) = stripCore l := by
  have hdw : (stripCore l).dropWhile pyWS = stripCore l := by
    cases h : stripCore l with
    | nil => rfl
    | cons a t2 =>
      have hm : rtrimCore (l.dropWhile pyWS) = a :: t2 := h
      have hne : l.dropWhile pyWS ≠ [] := by
        intro e
        rw [e] at hm
        cases hm
      obtain ⟨b, t, hbt⟩ := List.exists_cons_of_ne_nil hne
      have hshape := rtrimCore_cons_shape b t
      rw [hbt] at hm
      rcases hshape with h0 | ⟨t2', h1⟩
      · rw [h0] at hm
        cases hm
      · rw [h1] at hm
        have hba : b = a := by
          injection hm with hba _
        have hpb : pyWS b = false := dropWhile_cons_false pyWS l hbt
        rw [List.dropWhile_cons, if_neg (by simp [hba ▸ hpb])]
  calc stripCore (stripCore l)
      = rtrimCore ((stripCore l).dropWhile pyWS) := rfl
    _ = rtrimCore (stripCore l) := by rw [hdw]
    _ = rtrimCore (rtrimCore (l.dropWhile pyWS)) := rfl
    _ = rtrimCore (l.dropWhile pyWS) := rtrimCore_idem _
    _ = stripCore l := rfl

theorem pyStrip_idem (s : String) : pyStrip (pyStrip s) = pyStrip s :=
  congrArg String.mk (stripCore_idem s.data)

/-! ## Lemmas: the built list -/

/-- Every successfully built list is the sorted blank-line filter of the
survivors (both `ok` branches agree on this shape: with an empty frame the
survivor list is empty too). -/
theorem parse_stop_events_ok {p : Payload} {now tz : Int} {l : List Departure}
    (h : parse_stop_events p now tz = .ok l) :
    l = List.insertionSort depLE
      ((survivors p now tz).filter (fun d => 0 < d.line.length)) := by
  unfold parse_stop_events at h
  by_cases h1 : rowsOf p = []
  · rw [if_pos h1] at h
    injection h with h2
    have hs : survivors p now tz = [] := by
      unfold survivors
      rw [h1]
      rfl
    rw [hs, ← h2]
    rfl
  · rw [if_neg h1] at h
    by_cases h2 : survivors p now tz = []
    · rw [if_pos h2] at h
      cases h
    · rw [if_neg h2] at h
      injection h with h3
      exact h3.symm

/-- Every successfully built list is sorted: `dt` is non-decreasing along
it. -/
theorem sorted_of_ok {p : Payload} {now tz : Int} {l : List Departure}
    (h : parse_stop_events p now tz = .ok l) : l.Pairwise depLE := by
  rw [parse_stop_events_ok h]
  exact List.sorted_insertionSort depLE _

/-- Every record of a successfully built list arises from some raw event: its
visible fields are the normalized row of that event, its `dt` is the resolved
best time of that row, its derived columns come from `mkDeparture`, and its
line survived the blank filter. -/
theorem mem_parse_stop_events {p : Payload} {now tz : Int} {l : List Departure}
    {d : Departure} (hok : parse_stop_events p now tz = .ok l) (h : d ∈ l) :
    ∃ ev ∈ eventsOf p, rowOf d = normalize ev ∧
      _pick_best_time tz (normalize ev) = some d.dt ∧
      d = mkDeparture (normalize ev) d.dt now tz ∧
      0 < d.line.length := by
  rw [parse_stop_events_ok hok] at h
  have h1 := (List.perm_insertionSort depLE _).mem_iff.mp h
  rw [List.mem_filter] at h1
  obtain ⟨h2, hlen⟩ := h1
  unfold survivors rowsOf at h2
  rw [List.mem_filterMap] at h2
  obtain ⟨r, hr, hmk⟩ := h2
  rw [List.mem_map] at hr
  obtain ⟨ev, hev, hre⟩ := hr
  cases hpk : _pick_best_time tz r with
  | none =>
    rw [hpk] at hmk
    cases hmk
  | some t =>
    rw [hpk] at hmk
    have hd : mkDeparture r t now tz = d := by
      cases hmk
      rfl
    subst hre
    refine ⟨ev, hev, ?_, ?_, ?_, ?_⟩
    · rw [← hd]
      rfl
    · rw [← hd]
      exact hpk
    · rw [← hd]
      rfl
    · exact of_decide_eq_true hlen

/-! ## Lemmas: grouping -/

section Grouping

open List

variable {κ α : Type} [DecidableEq κ] (key : α → κ)

theorem addToGroups_flatten_perm (k : κ) (a : α) (gs : List (κ × List α)) :
    ((addToGroups k a gs).map Prod.snd).flatten.Perm
      (((gs.map Prod.snd).flatten) ++ [a]) := by
  induction gs with
  | nil => simp [addToGroups]
  | cons hd t ih =>
    obtain ⟨k0, g⟩ := hd
    by_cases hk : k0 = k
    · simp only [addToGroups, if_pos hk, List.map_cons, List.flatten_cons]
      calc (g ++ [a]) ++ ((t.map Prod.snd).flatten)
          = g ++ ([a] ++ (t.map Prod.snd).flatten) := by rw [List.append_assoc]
        _ ~ g ++ ((t.map Prod.snd).flatten ++ [a]) :=
            List.Perm.append_left g (List.perm_append_singleton a _).symm
        _ = (g ++ (t.map Prod.snd).flatten) ++ [a] := by rw [List.append_assoc]
    · simp only [addToGroups, if_neg hk, List.map_cons, List.flatten_cons]
      calc g ++ ((addToGroups k a t).map Prod.snd).flatten
          ~ g ++ ((t.map Prod.snd).flatten ++ [a]) := List.Perm.append_left g ih
        _ = (g ++ (t.map Prod.snd).flatten) ++ [a] := by rw [List.append_assoc]

theorem foldl_groups_flatten_perm (l : List α) (acc : List (κ × List α)) :
    (((l.foldl (fun acc a => addToGroups (key a) a acc) acc).map Prod.snd).flatten).Perm
      (((acc.map Prod.snd).flatten) ++ l) := by
  induction l generalizing acc with
  | nil => simp
  | cons a t ih =>
    calc (((a :: t).foldl (fun acc a => addToGroups (key a) a acc) acc).map Prod.snd).flatten
        = ((t.foldl (fun acc a => addToGroups (key a) a acc)
            (addToGroups (key a) a acc)).map Prod.snd).flatten := rfl
      _ ~ ((addToGroups (key a) a acc).map Prod.snd).flatten ++ t := ih _
      _ ~ ((acc.map Prod.snd).flatten ++ [a]) ++ t :=
          List.Perm.append_right t (addToGroups_flatten_perm (key a) a acc)
      _ = (acc.map Prod.snd).flatten ++ ([a] ++ t) := by rw [List.append_assoc]
      _ = (acc.map Prod.snd).flatten ++ (a :: t) := rfl

/-- The concatenation of all groups is a permutation of the grouped list. -/
theorem groupByKey_flatten_perm (l : List α) :
    (((groupByKey key l).map Prod.snd).flatten).Perm l := by
  have h := foldl_groups_flatten_perm key l ([] : List (κ × List α))
  simpa [groupByKey] using h

theorem groupByKey_append (l : List α) (a : α) :
    groupByKey key (l ++ [a]) = addToGroups (key a) a (groupByKey key l) := by
  unfold groupByKey
  rw [List.foldl_append]
  rfl

theorem firstKeys_append (l : List α) (a : α) :
    firstKeys key (l ++ [a]) =
      if key a ∈ firstKeys key l then firstKeys key l
      else firstKeys key l ++ [key a] := by
  unfold firstKeys
  rw [List.foldl_append]
  rfl

theorem firstKeys_nodup (l : List α) : (firstKeys key l).Nodup := by
  induction l using List.reverseRecOn with
  | nil => simp [firstKeys]
  | append_singleton l a ih =>
    rw [firstKeys_append]
    by_cases h : key a ∈ firstKeys key l
    · rw [if_pos h]
      exact ih
    · rw [if_neg h]
      simp [List.nodup_append, ih, h]

theorem mem_firstKeys (l : List α) (k : κ) :
    k ∈ firstKeys key l ↔ k ∈ l.map key := by
  induction l using List.reverseRecOn with
  | nil => simp [firstKeys]
  | append_singleton l a ih =>
    rw [firstKeys_append]
    by_cases h : key a ∈ firstKeys key l
    · rw [if_pos h]
      simp only [List.map_append, List.map_cons, List.map_nil, List.mem_append,
        List.mem_cons, List.not_mem_nil, or_false]
      constructor
      · intro hk
        exact Or.inl (ih.mp hk)
      · intro hk
        rcases hk with hk | hk
        · exact ih.mpr hk
        · rw [hk]
          exact h
    · rw [if_neg h]
      simp [ih, List.mem_append]

theorem addToGroups_map_mem (f : κ → List α) (k : κ) (a : α) {ks : List κ}
    (hnd : ks.Nodup) (hk : k ∈ ks) :
    addToGroups k a (ks.map (fun k2 => (k2, f k2))) =
      ks.map (fun k2 => (k2, if k2 = k then f k2 ++ [a] else f k2)) := by
  induction ks with
  | nil => cases hk
  | cons k0 t ih =>
    simp only [List.map_cons, addToGroups]
    by_cases h0 : k0 = k
    · rw [if_pos h0, if_pos h0]
      have hnt : k0 ∉ t := (List.nodup_cons.mp hnd).1
      have htail : t.map (fun k2 => (k2, if k2 = k then f k2 ++ [a] else f k2)) =
          t.map (fun k2 => (k2, f k2)) := by
        apply List.map_congr_left
        intro k2 hk2
        have : ¬ (k2 = k) := by
          intro e
          apply hnt
          rw [h0, ← e]
          exact hk2
        rw [if_neg this]
      rw [htail]
    · rw [if_neg h0, if_neg h0]
      have hkt : k ∈ t := by
        rcases List.mem_cons.mp hk with he | ht
        · exact absurd he.symm h0
        · exact ht
      rw [ih (List.nodup_cons.mp hnd).2 hkt]

theorem addToGroups_map_not_mem (f : κ → List α) (k : κ) (a : α) {ks : List κ}
    (hk : k ∉ ks) :
    addToGroups k a (ks.map (fun k2 => (k2, f k2))) =
      ks.map (fun k2 => (k2, f k2)) ++ [(k, [a])] := by
  induction ks with
  | nil => rfl
  | cons k0 t ih =>
    simp only [List.map_cons, addToGroups]
    have h0 : ¬ (k0 = k) := by
      intro e
      exact hk (e ▸ List.mem_cons_self k0 t)
    rw [if_neg h0, List.cons_append]
    rw [ih (fun ht => hk (List.mem_cons_of_mem k0 ht))]

/-- Characterization: `groupByKey` is the map over first-seen keys of the per-key filters. -/
theorem groupByKey_eq_filters (l : List α) :
    groupByKey key l =
      (firstKeys key l).map (fun k => (k, l.filter (fun x => key x = k))) := by
  induction l using List.reverseRecOn with
  | nil => rfl
  | append_singleton l a ih =>
    rw [groupByKey_append, firstKeys_append, ih]
    by_cases h : key a ∈ firstKeys key l
    · rw [if_pos h]
      rw [addToGroups_map_mem (fun k => l.filter (fun x => key x = k)) (key a) a
        (firstKeys_nodup key l) h]
      apply List.map_congr_left
      intro k2 hk2
      rw [List.filter_append]
      by_cases he : k2 = key a
      · rw [if_pos he]
        have : List.filter (fun x => decide (key x = k2)) [a] = [a] := by
          simp [he]
        rw [this]
      · rw [if_neg he]
        have : List.filter (fun x => decide (key x = k2)) [a] = [] := by
          simp
          intro e
          exact he e.symm
        rw [this, List.append_nil]
    · rw [if_neg h]
      rw [addToGroups_map_not_mem (fun k => l.filter (fun x => key x = k)) (key a) a h]
      rw [List.map_append]
      congr 1
      · apply List.map_congr_left
        intro k2 hk2
        rw [List.filter_append]
        have hne : ¬ (key a = k2) := by
          intro e
          exact h (e ▸ hk2)
        have : List.filter (fun x => decide (key x = k2)) [a] = [] := by
          simp [hne]
        rw [this, List.append_nil]
      · simp only [List.map_cons, List.map_nil]
        have hfl : l.filter (fun x => key x = key a) = [] := by
          rw [List.filter_eq_nil_iff]
          intro x hx
          simp only [decide_eq_true_eq]
          intro e
          exact h ((mem_firstKeys key l (key a)).mpr (List.mem_map.mpr ⟨x, hx, e⟩))
        have hfa : List.filter (fun x => decide (key x = key a)) [a] = [a] := by
          simp
        rw [List.filter_append, hfl, hfa]
        rfl

theorem groupByKey_keys (l : List α) :
    (groupByKey key l).map Prod.fst = firstKeys key l := by
  rw [groupByKey_eq_filters, List.map_map]
  exact List.map_id _

theorem groupByKey_groups {l : List α} {kg : κ × List α}
    (h : kg ∈ groupByKey key l) :
    kg.2 = l.filter (fun x => key x = kg.1) := by
  rw [groupByKey_eq_filters] at h
  obtain ⟨k, hk, he⟩ := List.mem_map.mp h
  rw [← he]

end Grouping

/-! ## Claim theorems -/

/-- Fallback behavior of every successfully built list (the part of claim C1
the code gets right): each record's `bestTime` is resolved by
`_pick_best_time` from its own `estimated`/`planned` strings, and an event on
which neither time string parses contributes no record.  The "raises no
error" part of C1 is false of the program — see `c1_unparseable_times_raise`
below — so this lemma backs no claim on its own. -/
theorem built_best_time_fallback (p : Payload) (now tz : Int)
    (l : List Departure) (hok : parse_stop_events p now tz = .ok l) :
    (∀ d ∈ l, _pick_best_time tz (rowOf d) = some d.dt) ∧
    (∀ ev ∈ eventsOf p, _pick_best_time tz (normalize ev) = none →
      ∀ d ∈ l, rowOf d ≠ normalize ev) := by
  constructor
  · intro d hd
    obtain ⟨ev, _, hrow, hpick, _, _⟩ := mem_parse_stop_events hok hd
    rw [hrow]
    exact hpick
  · intro ev _ hnone d hd he
    obtain ⟨ev2, _, hrow, hpick, _, _⟩ := mem_parse_stop_events hok hd
    rw [← hrow, he, hnone] at hpick
    cases hpick

/-- C2: every list the builder successfully produces is sorted non-decreasing
by `bestTime` (the `dt` column). -/
theorem c2_sorted_by_best_time (p : Payload) (now tz : Int)
    (l : List Departure) (hok : parse_stop_events p now tz = .ok l) :
    l.Pairwise (fun a b => a.dt ≤ b.dt) :=
  sorted_of_ok hok

/-- C3: for every record of a successfully built list, `minutesUntil` is the
floor of the difference `bestTime - now` in seconds divided by 60 (instants
are in microseconds, so the divisor is `usPerMin = 60000000`); the value is a
signed integer and is negative for departures in the past (see the
witness). -/
theorem c3_minutes_until (p : Payload) (now tz : Int)
    (l : List Departure) (hok : parse_stop_events p now tz = .ok l) :
    ∀ d ∈ l, d.mins = Int.fdiv (d.dt - now) usPerMin := by
  intro d hd
  obtain ⟨ev, _, _, _, hmk, _⟩ := mem_parse_stop_events hok hd
  conv_lhs => rw [hmk]
  rfl

/-- C5: every Departure of a successfully built list has a line that is
non-empty after stripping (the builder stores the stripped line, and
stripping is idempotent), and an event whose stripped line is empty
contributes no record to the built list. -/
theorem c5_line_nonblank (p : Payload) (now tz : Int)
    (l : List Departure) (hok : parse_stop_events p now tz = .ok l) :
    (∀ d ∈ l, 0 < (pyStrip d.line).length) ∧
    (∀ ev ∈ eventsOf p, (normalize ev).line = "" →
      ∀ d ∈ l, rowOf d ≠ normalize ev) := by
  constructor
  · intro d hd
    obtain ⟨ev, _, hrow, _, _, hlen⟩ := mem_parse_stop_events hok hd
    have hline : d.line = (normalize ev).line := congrArg Row.line hrow
    have hfix : pyStrip d.line = d.line := by
      rw [hline]
      show pyStrip (pyStrip (rawLine ev)) = pyStrip (rawLine ev)
      exact pyStrip_idem _
    rw [hfix]
    exact hlen
  · intro ev _ hblank d hd he
    obtain ⟨ev2, _, _, _, _, hlen⟩ := mem_parse_stop_events hok hd
    have hdl : d.line = "" := by
      have h2 := congrArg Row.line he
      rw [hblank] at h2
      exact h2
    rw [hdl] at hlen
    exact absurd hlen (by decide)

/-- C4: the display cap is applied to the sorted list before grouping: for
every successfully built list, the grouped output's records are (as a
multiset) the first `SHOW_ROWS` records of the sorted list, their total count
over all date groups is exactly `SHOW_ROWS` whenever at least `SHOW_ROWS`
records survive, and every record kept is no later (by `bestTime`) than every
record dropped. -/
theorem c4_truncation_before_grouping (p : Payload) (now tz : Int)
    (l : List Departure) (hok : parse_stop_events p now tz = .ok l) :
    (SHOW_ROWS ≤ l.length →
      (((render_grouped_by_date l SHOW_ROWS).map Prod.snd).flatten).length =
        SHOW_ROWS) ∧
    ((((render_grouped_by_date l SHOW_ROWS).map Prod.snd).flatten).Perm
      (l.take SHOW_ROWS)) ∧
    (∀ x ∈ ((render_grouped_by_date l SHOW_ROWS).map Prod.snd).flatten,
      ∀ y ∈ l.drop SHOW_ROWS, x.dt ≤ y.dt) := by
  have hperm :
      ((((render_grouped_by_date l SHOW_ROWS).map Prod.snd).flatten).Perm
        (l.take SHOW_ROWS)) :=
    groupByKey_flatten_perm (fun d : Departure => d.date_label) (l.take SHOW_ROWS)
  refine ⟨?_, hperm, ?_⟩
  · intro hle
    rw [hperm.length_eq, List.length_take]
    exact inf_eq_left.mpr hle
  · intro x hx y hy
    have hx2 : x ∈ l.take SHOW_ROWS := hperm.mem_iff.mp hx
    have hsorted := sorted_of_ok hok
    rw [← List.take_append_drop SHOW_ROWS l] at hsorted
    exact (List.pairwise_append.mp hsorted).2.2 x hx2 y hy

/-- C6: for every successfully built list, grouping partitions the truncated
sorted list by `date_label` without re-sorting: the group keys are the labels
in first-seen order, each group is exactly the in-order selection of the
truncated list with that label, the groups together hold exactly the
truncated list's records (as a multiset), and each group inherits the
ascending-by-`bestTime` order. -/
theorem c6_grouping_partitions (p : Payload) (now tz : Int)
    (l : List Departure) (hok : parse_stop_events p now tz = .ok l) :
    ((render_grouped_by_date l SHOW_ROWS).map Prod.fst =
      firstKeys (fun d => d.date_label) (l.take SHOW_ROWS)) ∧
    (∀ kg ∈ render_grouped_by_date l SHOW_ROWS,
      kg.2 = (l.take SHOW_ROWS).filter (fun d => d.date_label = kg.1)) ∧
    ((((render_grouped_by_date l SHOW_ROWS).map Prod.snd).flatten).Perm
      (l.take SHOW_ROWS)) ∧
    (∀ kg ∈ render_grouped_by_date l SHOW_ROWS,
      kg.2.Pairwise (fun a b => a.dt ≤ b.dt)) := by
  refine ⟨groupByKey_keys (fun d : Departure => d.date_label) _, ?_,
    groupByKey_flatten_perm (fun d : Departure => d.date_label) _, ?_⟩
  · intro kg hkg
    exact groupByKey_groups (fun d : Departure => d.date_label) hkg
  · intro kg hkg
    have hflt := groupByKey_groups (fun d : Departure => d.date_label) hkg
    rw [hflt]
    have hsub : ((l.take SHOW_ROWS).filter
        (fun d => decide (d.date_label = kg.1))).Sublist l :=
      (List.filter_sublist _).trans (List.take_sublist _ _)
    exact List.Pairwise.sublist hsub (sorted_of_ok hok)

theorem flatMap_replaceZChar_id (l : List Char) (h : 'Z' ∉ l) :
    l.flatMap replaceZChar = l := by
  induction l with
  | nil => rfl
  | cons a t ih =>
    rw [List.flatMap_cons]
    have ha : ¬ (a = 'Z') := fun e => h (e ▸ List.mem_cons_self a t)
    rw [ih (fun ht => h (List.mem_cons_of_mem a ht))]
    simp [replaceZChar, ha]

/-- C8: the time resolver returns `none` and raises nothing on the empty
string and on every string whose ISO parse fails; on a string whose only `Z`
is a trailing UTC marker it behaves exactly as on the same string with the
`Z` replaced by the offset `+00:00`, whose parse — when it succeeds — yields
the corresponding timezone-aware instant via `instantOfParsed`. -/
theorem c8_resolver_invalid_and_z (tz : Int) (s : String) :
    (s = "" → _parse_iso_to_local_dt tz s = none) ∧
    (fromisoformat (replaceZ s) = none → _parse_iso_to_local_dt tz s = none) ∧
    (∀ l : List Char, 'Z' ∉ l → s = String.mk (l ++ ['Z']) →
      _parse_iso_to_local_dt tz s =
        _parse_iso_to_local_dt tz (String.mk (l ++ ['+', '0', '0', ':', '0', '0']))) := by
  refine ⟨?_, ?_, ?_⟩
  · intro h
    rw [h]
    rfl
  · intro h
    unfold _parse_iso_to_local_dt
    by_cases he : s = ""
    · rw [if_pos he]
    · rw [if_neg he, h]
      rfl
  · intro l hZ hs
    subst hs
    have h1 : String.mk (l ++ ['Z']) ≠ "" := by
      intro e
      exact List.append_ne_nil_of_right_ne_nil l (by simp) (congrArg String.data e)
    have h2 : String.mk (l ++ ['+', '0', '0', ':', '0', '0']) ≠ "" := by
      intro e
      exact List.append_ne_nil_of_right_ne_nil l (by simp) (congrArg String.data e)
    have hrz1 : replaceZ (String.mk (l ++ ['Z'])) =
        String.mk (l ++ ['+', '0', '0', ':', '0', '0']) := by
      unfold replaceZ
      congr 1
      show (l ++ ['Z']).flatMap replaceZChar = l ++ ['+', '0', '0', ':', '0', '0']
      rw [List.flatMap_append, flatMap_replaceZChar_id l hZ]
      rfl
    have hrz2 : replaceZ (String.mk (l ++ ['+', '0', '0', ':', '0', '0'])) =
        String.mk (l ++ ['+', '0', '0', ':', '0', '0']) := by
      unfold replaceZ
      congr 1
      show (l ++ ['+', '0', '0', ':', '0', '0']).flatMap replaceZChar =
        l ++ ['+', '0', '0', ':', '0', '0']
      rw [List.flatMap_append, flatMap_replaceZChar_id l hZ,
        flatMap_replaceZChar_id ['+', '0', '0', ':', '0', '0'] (by decide)]
    unfold _parse_iso_to_local_dt
    rw [if_neg h1, if_neg h2, hrz1, hrz2]

/-- C9: the fetcher yields the configuration error exactly when the credential
is absent or empty, and in that case the result does not depend on the HTTP
transport at all — no request is consulted, so the error is distinct from
every network/HTTP error (which are `FetchError.upstream`). -/
theorem c9_credential_check (stop_id : String) (env_api_key : Option String)
    (http : HttpRequest → HttpOutcome) :
    ((∃ m, fetch_departures stop_id env_api_key http = .error (.config m)) ↔
      env_api_key = none ∨ env_api_key = some "") ∧
    (env_api_key = none ∨ env_api_key = some "" →
      ∀ http2, fetch_departures stop_id env_api_key http =
        fetch_departures stop_id env_api_key http2) := by
  constructor
  · constructor
    · rintro ⟨m, hm⟩
      match env_api_key with
      | none => exact Or.inl rfl
      | some k =>
        by_cases hk : k = ""
        · exact Or.inr (by rw [hk])
        · exfalso
          simp only [fetch_departures, if_neg hk] at hm
          rcases hr : http (builtRequest stop_id k) with m2 | ⟨st, body⟩ <;> rw [hr] at hm
          · simp at hm
          · by_cases hst : 400 ≤ st
            · simp [hst] at hm
            · cases body <;> simp [hst] at hm
    · intro h
      rcases h with h | h
      · rw [h]
        exact ⟨"Missing TFNSW_API_KEY environment variable", rfl⟩
      · rw [h]
        exact ⟨"Missing TFNSW_API_KEY environment variable", rfl⟩
  · intro h http2
    rcases h with h | h
    · rw [h]
      rfl
    · rw [h]
      rfl

/-- C10: a payload with an absent `stopEvents` key and a payload with a null
`stopEvents` value both build to the same result as a payload with an empty
`stopEvents` array, namely the successful empty list — the `df.empty` early
return fires before any `.dt` use, so no error is raised on this path. -/
theorem c10_missing_stop_events (now tz : Int) :
    parse_stop_events ⟨JField.absent⟩ now tz = parse_stop_events ⟨JField.val []⟩ now tz ∧
    parse_stop_events ⟨JField.null⟩ now tz = parse_stop_events ⟨JField.val []⟩ now tz ∧
    parse_stop_events ⟨JField.val []⟩ now tz = .ok [] :=
  ⟨rfl, rfl, rfl⟩

/-! ## Concrete inputs for the witnesses -/

/-- The list carried by a successful build (used to name concrete built lists
in witnesses; the error fallback is never exercised there). -/
def okList : Except String (List Departure) → List Departure
  | .ok l => l
  | .error _ => []

def wNow : Int := 1705296600000000

def wTz : Int := 39600000000

def wEvNoTime : RawStopEvent :=
  ⟨some ⟨some "400", none, none, none⟩, none, none, some "garbled", none, none⟩

def wEvBlank : RawStopEvent :=
  ⟨some ⟨some "   ", none, none, none⟩, none, none,
   some "2024-01-15T06:00:00Z", none, none⟩

def wEvPast : RawStopEvent :=
  ⟨some ⟨some "333", none, none, none⟩, some ⟨some "Stop A"⟩, some ⟨some "Bondi Beach"⟩,
   none, none, some "2024-01-15T05:20:00Z"⟩

def wEvFuture : RawStopEvent :=
  ⟨some ⟨some "501", none, none, none⟩, none, some ⟨some "City"⟩,
   some "2024-01-15T06:00:00Z", none, none⟩

def wP1 : Payload := ⟨.val [wEvNoTime, wEvBlank, wEvPast, wEvFuture]⟩

/-- A non-empty payload none of whose events has a parseable time string. -/
def wPBadOnly : Payload := ⟨.val [wEvNoTime]⟩

def wOut1 : List Departure := okList (parse_stop_events wP1 wNow wTz)

def wDPast : Departure := mkDeparture (normalize wEvPast) 1705296000000000 wNow wTz

def wEvN (line iso : String) : RawStopEvent :=
  ⟨some ⟨some line, none, none, none⟩, none, some ⟨some "City"⟩, some iso, none, none⟩

def wP15 : Payload := ⟨.val
  [wEvN "301" "2024-01-15T05:31:00Z", wEvN "302" "2024-01-15T05:32:00Z",
   wEvN "303" "2024-01-15T05:33:00Z", wEvN "304" "2024-01-15T05:34:00Z",
   wEvN "305" "2024-01-15T05:35:00Z", wEvN "306" "2024-01-15T05:36:00Z",
   wEvN "307" "2024-01-15T05:37:00Z", wEvN "308" "2024-01-15T05:38:00Z",
   wEvN "309" "2024-01-15T05:39:00Z", wEvN "310" "2024-01-15T05:40:00Z",
   wEvN "311" "2024-01-15T05:41:00Z", wEvN "312" "2024-01-15T05:42:00Z",
   wEvN "313" "2024-01-15T05:43:00Z", wEvN "314" "2024-01-15T05:44:00Z",
   wEvN "315" "2024-01-15T05:45:00Z"]⟩

def wOut15 : List Departure := okList (parse_stop_events wP15 wNow wTz)

def wDx : Departure :=
  mkDeparture (normalize (wEvN "301" "2024-01-15T05:31:00Z")) 1705296660000000 wNow wTz

def wDy : Departure :=
  mkDeparture (normalize (wEvN "311" "2024-01-15T05:41:00Z")) 1705297260000000 wNow wTz

def wP2d : Payload := ⟨.val
  [wEvN "101" "2024-01-15T05:40:00Z", wEvN "102" "2024-01-15T05:50:00Z",
   wEvN "103" "2024-01-15T14:00:00Z", wEvN "104" "2024-01-15T14:10:00Z"]⟩

def wOut2d : List Departure := okList (parse_stop_events wP2d wNow wTz)

def wKg : Int × List Departure :=
  (render_grouped_by_date wOut2d SHOW_ROWS).headI

def wHttpOK : HttpRequest → HttpOutcome :=
  fun _ => .response 200 (some ⟨.val []⟩)

def wHttpDown : HttpRequest → HttpOutcome :=
  fun _ => .transportError "connection refused"

/-! ## Witnesses and the C1 failing input -/

/-- C1: the claim's "this exclusion raises no error" is false of the program.
On a non-empty payload none of whose events has a parseable time string, the
`dt` column is all-`None` with object dtype, the `notna` filter keeps that
dtype, and `df["dt"].dt.strftime` (app.py:101) raises `AttributeError` — the
builder errors instead of silently excluding the events.  The spec
("silent filter, not a reported error"; "builder-level filtering never
raises") is the intent and the code slips, so the claim is a code bug; this
theorem evaluates the embedded builder at the failing input.  The part of the
claim the code does satisfy (the estimated-else-planned resolution and the
exclusion of unparseable events whenever a list is built at all) is
`built_best_time_fallback` above. -/
theorem c1_unparseable_times_raise :
    parse_stop_events wPBadOnly wNow wTz =
      Except.error "AttributeError: Can only use .dt accessor with datetimelike values" :=
  rfl

/-- Witness for C2 on a concrete payload: the produced list is sorted. -/
theorem c2_witness : wOut1.Pairwise (fun a b => a.dt ≤ b.dt) :=
  c2_sorted_by_best_time wP1 wNow wTz wOut1 rfl

/-- Witness for C3 at a departure 10 minutes in the past: the equation holds
and the value is negative. -/
theorem c3_witness :
    wDPast.mins = Int.fdiv (wDPast.dt - wNow) usPerMin ∧ wDPast.mins < 0 :=
  ⟨c3_minutes_until wP1 wNow wTz wOut1 rfl wDPast (by decide), by decide⟩

/-- Witness for C4 on 15 survivors and cap 10: the grouped output holds
exactly 10 records and a kept record is not later than a dropped one. -/
theorem c4_witness :
    (((render_grouped_by_date wOut15 SHOW_ROWS).map Prod.snd).flatten).length =
      SHOW_ROWS ∧
    wDx.dt ≤ wDy.dt :=
  ⟨(c4_truncation_before_grouping wP15 wNow wTz wOut15 rfl).1 (by decide),
   (c4_truncation_before_grouping wP15 wNow wTz wOut15 rfl).2.2 wDx (by decide)
     wDy (by decide)⟩

/-- Witness for C5: the surviving record's line is non-empty after stripping,
and no built row is the row of the blank-line event. -/
theorem c5_witness :
    0 < (pyStrip wDPast.line).length ∧ rowOf wDPast ≠ normalize wEvBlank :=
  ⟨(c5_line_nonblank wP1 wNow wTz wOut1 rfl).1 wDPast (by decide),
   (c5_line_nonblank wP1 wNow wTz wOut1 rfl).2 wEvBlank (by decide) (by decide)
     wDPast (by decide)⟩

/-- Witness for C6 on a payload spanning two local dates: the first group is
the filter of the truncated list at its key and is sorted. -/
theorem c6_witness :
    wKg.2 = (wOut2d.take SHOW_ROWS).filter (fun d => d.date_label = wKg.1) ∧
    wKg.2.Pairwise (fun a b => a.dt ≤ b.dt) :=
  ⟨(c6_grouping_partitions wP2d wNow wTz wOut2d rfl).2.1 wKg (by decide),
   (c6_grouping_partitions wP2d wNow wTz wOut2d rfl).2.2.2 wKg (by decide)⟩

/-- Witness for C8: empty input, a non-parsing input, the trailing-Z
equivalence at a concrete timestamp, and the resolved instant of a concrete
UTC timestamp. -/
theorem c8_witness :
    _parse_iso_to_local_dt 0 "" = none ∧
    _parse_iso_to_local_dt 0 "banana" = none ∧
    _parse_iso_to_local_dt 0 (String.mk ("2024-01-15T05:30:00".data ++ ['Z'])) =
      _parse_iso_to_local_dt 0
        (String.mk ("2024-01-15T05:30:00".data ++ ['+', '0', '0', ':', '0', '0'])) ∧
    _parse_iso_to_local_dt 39600000000 "2024-01-15T05:30:00Z" = some 1705296600000000 :=
  ⟨(c8_resolver_invalid_and_z 0 "").1 rfl,
   (c8_resolver_invalid_and_z 0 "banana").2.1 (by decide),
   (c8_resolver_invalid_and_z 0
       (String.mk ("2024-01-15T05:30:00".data ++ ['Z']))).2.2
     "2024-01-15T05:30:00".data (by decide) rfl,
   by decide⟩

/-- Witness for C9: with an empty credential the fetcher reports the
configuration error and the result is the same under a healthy and a failing
transport. -/
theorem c9_witness :
    (∃ m, fetch_departures STOP_ID (some "") wHttpOK = .error (.config m)) ∧
    fetch_departures STOP_ID (some "") wHttpOK =
      fetch_departures STOP_ID (some "") wHttpDown :=
  ⟨(c9_credential_check STOP_ID (some "") wHttpOK).1.mpr (Or.inr rfl),
   (c9_credential_check STOP_ID (some "") wHttpOK).2 (Or.inr rfl) wHttpDown⟩

end BusTracker
